import Mathlib

/-!
Verification of the ingestion-and-aggregation pipeline of `src/viceualize.py`
(function `process_files`).  The pipeline reads each spreadsheet file into a
dataframe (one skipped header row, rows indexed from 0), coerces column 0 to
datetimes (`pd.to_datetime(..., errors="coerce")`), keeps the valid-date rows,
coerces columns 1-4 to numbers (`pd.to_numeric(..., errors="coerce")`, NaN on
failure), sums each row treating NaN as 0, counts NaN cells per row, warns on
rows with invalid cells and on duplicate dates (pandas `duplicated(keep='first')`
order), and builds a `date -> sum` dict per file (python dict insertion,
last write wins), collected into a `filename -> dict` mapping.

The embedding below models cell values as a tagged union and the two pandas
coercions element-wise by their documented behaviour:
* `pd.to_numeric` succeeds on numbers, on booleans (True ↦ 1, False ↦ 0) and
  on numeral strings (optionally signed integer or decimal literals; exponent
  notation is not modelled), and fails (NaN) on blanks, non-numeral strings
  and datetime objects;
* `pd.to_datetime` keeps datetime objects, parses date strings
  (`YYYY-MM-DD`, optionally followed by ` HH:MM` or ` HH:MM:SS`; other string
  shapes fail to NaT), and fails on blanks and booleans.  The epoch-offset
  interpretation pandas gives to raw numbers in a date column is not
  modelled (no row of interest carries a numeric date cell); such cells are
  mapped to NaT here.
-/

namespace Viceualize

/-- A pandas `Timestamp` as produced by `pd.to_datetime` on the date column:
a naive calendar date plus a time-of-day offset in seconds. -/
structure Timestamp where
  year : ℕ
  month : ℕ
  day : ℕ
  seconds : ℚ
deriving DecidableEq

/-- An untyped spreadsheet cell as surfaced by `pd.read_excel`:
blank (NaN/None), numeric, string, boolean, or a datetime object. -/
inductive Cell
  | empty : Cell
  | num : ℚ → Cell
  | str : String → Cell
  | bool : Bool → Cell
  | datetime : Timestamp → Cell
deriving DecidableEq

/-- Value of a digit list read in base 10. -/
def digitsVal (l : List Char) : ℕ :=
  l.foldl (fun a c => 10 * a + (c.toNat - 48)) 0

/-- Unsigned numeral: digits, optionally a decimal point and more digits
(at least one digit overall).  Models the literal shapes `pd.to_numeric`
accepts in strings, minus exponent notation. -/
def parseUnsigned (l : List Char) : Option ℚ :=
  match l.span Char.isDigit with
  | (ds, []) => if ds.isEmpty then none else some (digitsVal ds)
  | (ds, '.' :: fs) =>
      if fs.all Char.isDigit ∧ ¬(ds.isEmpty ∧ fs.isEmpty) then
        some ((digitsVal ds : ℚ) + (digitsVal fs : ℚ) / (10 : ℚ) ^ fs.length)
      else none
  | _ => none

/-- Optionally signed numeral string. -/
def parseNumeral (s : String) : Option ℚ :=
  match s.toList with
  | '-' :: rest => (parseUnsigned rest).map Neg.neg
  | '+' :: rest => parseUnsigned rest
  | l => parseUnsigned l

/-- `pd.to_numeric(cell, errors="coerce")`, element-wise: numbers pass
through, booleans convert to 1/0, numeral strings parse; blanks,
non-numeral strings and datetime objects coerce to NaN (`none`). -/
def to_numeric : Cell → Option ℚ
  | Cell.empty => none
  | Cell.num q => some q
  | Cell.bool b => some (if b then 1 else 0)
  | Cell.str s => parseNumeral s
  | Cell.datetime _ => none

/-- Two decimal digits. -/
def twoDigits (a b : Char) : Option ℕ :=
  if a.isDigit ∧ b.isDigit then some (digitsVal [a, b]) else none

/-- Four decimal digits. -/
def fourDigits (a b c d : Char) : Option ℕ :=
  if a.isDigit ∧ b.isDigit ∧ c.isDigit ∧ d.isDigit then some (digitsVal [a, b, c, d])
  else none

/-- Calendar-range check performed by the date parser. -/
def mkDate (y m d : ℕ) (secs : ℚ) : Option Timestamp :=
  if 1 ≤ m ∧ m ≤ 12 ∧ 1 ≤ d ∧ d ≤ 31 then some ⟨y, m, d, secs⟩ else none

/-- Date-string parsing: `YYYY-MM-DD`, optionally ` HH:MM` or ` HH:MM:SS`.
Models the formats `pd.to_datetime` accepts for this data; any other string
coerces to NaT (`none`). -/
def parseDateString (s : String) : Option Timestamp :=
  match s.toList with
  | [a, b, c, d, '-', e, f, '-', g, h] =>
      (fourDigits a b c d).bind fun y =>
      (twoDigits e f).bind fun mo =>
      (twoDigits g h).bind fun dy =>
      mkDate y mo dy 0
  | [a, b, c, d, '-', e, f, '-', g, h, ' ', i, j, ':', k, l] =>
      (fourDigits a b c d).bind fun y =>
      (twoDigits e f).bind fun mo =>
      (twoDigits g h).bind fun dy =>
      (twoDigits i j).bind fun hh =>
      (twoDigits k l).bind fun mm =>
      if hh < 24 ∧ mm < 60 then mkDate y mo dy (3600 * hh + 60 * mm) else none
  | [a, b, c, d, '-', e, f, '-', g, h, ' ', i, j, ':', k, l, ':', m, n] =>
      (fourDigits a b c d).bind fun y =>
      (twoDigits e f).bind fun mo =>
      (twoDigits g h).bind fun dy =>
      (twoDigits i j).bind fun hh =>
      (twoDigits k l).bind fun mm =>
      (twoDigits m n).bind fun ss =>
      if hh < 24 ∧ mm < 60 ∧ ss < 60 then
        mkDate y mo dy (3600 * hh + 60 * mm + ss)
      else none
  | _ => none

/-- `pd.to_datetime(cell, errors="coerce")`, element-wise (line 45 of
`viceualize.py` applies it to column 0):  datetime objects pass through,
date strings parse, everything else coerces to NaT (`none`). -/
def to_datetime : Cell → Option Timestamp
  | Cell.datetime t => some t
  | Cell.str s => parseDateString s
  | Cell.empty => none
  | Cell.bool _ => none
  | Cell.num _ => none

/-- One data row of the sheet: column 0 is the date cell, columns 1-4 are
the amount cells (`cols = [1, 2, 3, 4]` in the source). -/
structure RawRow where
  dateCell : Cell
  amounts : List Cell
deriving DecidableEq

/-- `df_valid['sum_val']` for one row: `df_numeric.sum(axis=1)` with
`skipna=True`, i.e. each NaN amount contributes 0. -/
def sum_val (r : RawRow) : ℚ :=
  (r.amounts.map (fun c => (to_numeric c).getD 0)).sum

/-- `df_valid['invalid_count']` for one row: `df_numeric.isna().sum(axis=1)`,
the number of amount cells coercing to NaN. -/
def invalid_count (r : RawRow) : ℕ :=
  r.amounts.countP (fun c => (to_numeric c).isNone)

/-- `df_valid` with its original dataframe index: the rows whose date cell
coerces to a datetime, tagged with their 0-based position (first argument is
the index of the first row of the list). -/
def validList : ℕ → List RawRow → List (ℕ × Timestamp × RawRow)
  | _, [] => []
  | i, r :: rest =>
      match to_datetime r.dateCell with
      | some t => (i, t, r) :: validList (i + 1) rest
      | none => validList (i + 1) rest

/-- Python dict insertion: an existing key keeps its position and gets the
new value, a fresh key is appended at the end. -/
def dictInsert {α β : Type} [DecidableEq α] (k : α) (v : β) :
    List (α × β) → List (α × β)
  | [] => [(k, v)]
  | (k', v') :: rest =>
      if k = k' then (k, v) :: rest else (k', v') :: dictInsert k v rest

/-- `data_dict = df_valid.set_index(0)['sum_val'].to_dict()` (line 71):
insert `(date, sum)` for every valid row in order; python dict semantics
make the last row with a given date win. -/
def data_dict (rows : List RawRow) : List (Timestamp × ℚ) :=
  (validList 0 rows).foldl (fun acc e => dictInsert e.2.1 (sum_val e.2.2) acc) []

/-- `invalid_rows = df_valid[df_valid['invalid_count'] > 0]` iterated in
order (lines 59-62): entries `(original_index, invalid_count)` where
`original_index = df index + 2`. -/
def invalid_log (rows : List RawRow) : List (ℕ × ℕ) :=
  (validList 0 rows).filterMap (fun e =>
    if 0 < invalid_count e.2.2 then some (e.1 + 2, invalid_count e.2.2) else none)

/-- `df_valid.duplicated(subset=[0], keep='first')` as a forward scan: a row
is flagged when its date already occurred among earlier valid rows. -/
def dupScan : List Timestamp → List (ℕ × Timestamp × RawRow) → List (Timestamp × ℕ)
  | _, [] => []
  | seen, e :: rest =>
      (if e.2.1 ∈ seen then [(e.2.1, e.1 + 2)] else []) ++ dupScan (e.2.1 :: seen) rest

/-- The duplicate warnings of lines 65-68: `(date, original_index)` for each
valid row whose date already appeared, in row order. -/
def duplicate_log (rows : List RawRow) : List (Timestamp × ℕ) :=
  dupScan [] (validList 0 rows)

/-- `num_date_errors = (~valid_dates).sum()` (line 72). -/
def num_date_errors (rows : List RawRow) : ℕ :=
  rows.countP (fun r => (to_datetime r.dateCell).isNone)

/-- Everything `process_files` derives from one file's rows: the series
handed to `head_dict`, the two warning logs, and the counts of line 74
(`len(df_valid)` and `num_date_errors`) plus the number of data rows read. -/
structure FileResult where
  series : List (Timestamp × ℚ)
  invalidEntries : List (ℕ × ℕ)
  dupEntries : List (Timestamp × ℕ)
  validRows : ℕ
  dateErrors : ℕ
  totalRows : ℕ
deriving DecidableEq

/-- The per-file body of `process_files` (lines 44-75). -/
def process_file (rows : List RawRow) : FileResult :=
  ⟨data_dict rows, invalid_log rows, duplicate_log rows,
    (validList 0 rows).length, num_date_errors rows, rows.length⟩

/-- Zero-padded two-digit rendering. -/
def pad2 (n : ℕ) : String :=
  if n < 10 then "0" ++ toString n else toString n

/-- Zero-padded four-digit rendering. -/
def pad4 (n : ℕ) : String :=
  if n < 10 then "000" ++ toString n
  else if n < 100 then "00" ++ toString n
  else if n < 1000 then "0" ++ toString n
  else toString n

/-- `str()` of a pandas `Timestamp`: `YYYY-MM-DD HH:MM:SS`. -/
def timestampStr (t : Timestamp) : String :=
  let s := t.seconds.floor.toNat
  pad4 t.year ++ "-" ++ pad2 t.month ++ "-" ++ pad2 t.day ++ " " ++
    pad2 (s / 3600) ++ ":" ++ pad2 (s % 3600 / 60) ++ ":" ++ pad2 (s % 60)

/-- The invalid-cells warning of lines 61-62, exactly as printed. -/
def invalid_warning (cnt idx : ℕ) (filename : String) : String :=
  s!"Warning: {cnt} non-integer value(s) in columns B-E of row {idx} in {filename}. Treated as 0."

/-- The duplicate-date warning of lines 67-68, exactly as printed. -/
def duplicate_warning (t : Timestamp) (idx : ℕ) (filename : String) : String :=
  s!"Warning: Duplicate date {timestampStr t} in row {idx} of {filename}. Overwriting previous entry."

/-- The invalid-cells warning lines a file emits, in emission order. -/
def invalid_warnings (rows : List RawRow) (filename : String) : List String :=
  (invalid_log rows).map (fun e => invalid_warning e.2 e.1 filename)

/-- The duplicate-date warning lines a file emits, in emission order. -/
def duplicate_warnings (rows : List RawRow) (filename : String) : List String :=
  (duplicate_log rows).map (fun e => duplicate_warning e.1 e.2 filename)

/-- Modelled from the spec: the exact diagnostic line the spec asserts for an
invalid-cell row, "N non-integer value(s) in row R of FILE, treated as 0". -/
def spec_invalid_line (cnt idx : ℕ) (filename : String) : String :=
  s!"{cnt} non-integer value(s) in row {idx} of {filename}, treated as 0"

/-- Modelled from the spec: the exact diagnostic line the spec asserts for a
duplicate date, "duplicate date D in row R of FILE, overwriting previous
entry". -/
def spec_duplicate_line (t : Timestamp) (idx : ℕ) (filename : String) : String :=
  s!"duplicate date {timestampStr t} in row {idx} of {filename}, overwriting previous entry"

/-- The batch loop of `process_files` over already-read files: a file whose
read failed (`except` branch, lines 40-42) is skipped, a successful file
contributes `head_dict[filename] = data_dict` (line 75). -/
def process_files (files : List (String × Except String (List RawRow))) :
    List (String × List (Timestamp × ℚ)) :=
  files.foldl (fun acc f =>
    match f.2 with
    | Except.error _ => acc
    | Except.ok rows => dictInsert f.1 (data_dict rows) acc) []

/-- Python dict lookup `d[k]` on the association-list model. -/
def dictGet {α β : Type} [DecidableEq α] (k : α) : List (α × β) → Option β
  | [] => none
  | (k', v) :: rest => if k = k' then some v else dictGet k rest

/-- The `(date, row)` pairs of the valid rows, without their indices. -/
def validPairs (rows : List RawRow) : List (Timestamp × RawRow) :=
  rows.filterMap (fun r => (to_datetime r.dateCell).map (fun t => (t, r)))

/-! ### Structure lemmas about the embedded pipeline -/

theorem validList_cons_valid (r : RawRow) (rest : List RawRow) (i : ℕ) (t : Timestamp)
    (h : to_datetime r.dateCell = some t) :
    validList i (r :: rest) = (i, t, r) :: validList (i + 1) rest := by
  simp [validList, h]

theorem validList_cons_invalid (r : RawRow) (rest : List RawRow) (i : ℕ)
    (h : to_datetime r.dateCell = none) :
    validList i (r :: rest) = validList (i + 1) rest := by
  simp [validList, h]

theorem validList_append (l1 l2 : List RawRow) :
    ∀ i, validList i (l1 ++ l2) = validList i l1 ++ validList (i + l1.length) l2 := by
  induction l1 with
  | nil => intro i; simp [validList]
  | cons r rest ih =>
      intro i
      have hidx : i + 1 + rest.length = i + (r :: rest).length := by
        simp [List.length_cons]; omega
      cases hr : to_datetime r.dateCell with
      | some t =>
          rw [List.cons_append, validList_cons_valid _ _ _ _ hr,
            validList_cons_valid _ _ _ _ hr, ih (i + 1), hidx, List.cons_append]
      | none =>
          rw [List.cons_append, validList_cons_invalid _ _ _ hr,
            validList_cons_invalid _ _ _ hr, ih (i + 1), hidx]

theorem mem_validList {e : ℕ × Timestamp × RawRow} :
    ∀ (l : List RawRow) (i : ℕ), e ∈ validList i l →
      ∃ j, e.1 = i + j ∧ l.get? j = some e.2.2 ∧ to_datetime e.2.2.dateCell = some e.2.1 := by
  intro l
  induction l with
  | nil => intro i h; simp [validList] at h
  | cons r rest ih =>
      intro i h
      cases hr : to_datetime r.dateCell with
      | some t =>
          rw [validList_cons_valid r rest i t hr] at h
          rcases List.mem_cons.mp h with h1 | h2
          · exact ⟨0, by simp [h1], by simp [h1], by simp [h1, hr]⟩
          · rcases ih (i + 1) h2 with ⟨j, hj1, hj2, hj3⟩
            exact ⟨j + 1, by omega, by simpa using hj2, hj3⟩
      | none =>
          rw [validList_cons_invalid r rest i hr] at h
          rcases ih (i + 1) h with ⟨j, hj1, hj2, hj3⟩
          exact ⟨j + 1, by omega, by simpa using hj2, hj3⟩

theorem mem_validList_lower {e : ℕ × Timestamp × RawRow} {l : List RawRow} {i : ℕ}
    (h : e ∈ validList i l) : i ≤ e.1 := by
  rcases mem_validList l i h with ⟨j, hj, -, -⟩
  omega

theorem mem_validList_upper {e : ℕ × Timestamp × RawRow} {l : List RawRow} {i : ℕ}
    (h : e ∈ validList i l) : e.1 < i + l.length := by
  rcases mem_validList l i h with ⟨j, hj, hget, -⟩
  obtain ⟨hlt, -⟩ := List.get?_eq_some.mp hget
  omega

theorem validList_pairwise (l : List RawRow) :
    ∀ i, List.Pairwise (fun a b => a.1 < b.1) (validList i l) := by
  induction l with
  | nil => intro i; simp [validList]
  | cons r rest ih =>
      intro i
      cases hr : to_datetime r.dateCell with
      | some t =>
          rw [validList_cons_valid r rest i t hr]
          refine List.pairwise_cons.mpr ⟨?_, ih (i + 1)⟩
          intro e he
          have := mem_validList_lower he
          omega
      | none =>
          rw [validList_cons_invalid r rest i hr]
          exact ih (i + 1)

theorem validList_map_snd (l : List RawRow) :
    ∀ i, (validList i l).map Prod.snd = validPairs l := by
  induction l with
  | nil => intro i; simp [validList, validPairs]
  | cons r rest ih =>
      intro i
      cases hr : to_datetime r.dateCell with
      | some t =>
          have hvp : validPairs (r :: rest) = (t, r) :: validPairs rest := by
            simp [validPairs, List.filterMap_cons, hr]
          rw [validList_cons_valid r rest i t hr, List.map_cons, hvp, ih (i + 1)]
      | none =>
          have hvp : validPairs (r :: rest) = validPairs rest := by
            simp [validPairs, List.filterMap_cons, hr]
          rw [validList_cons_invalid r rest i hr, hvp, ih (i + 1)]

theorem dictGet_dictInsert_self {α β : Type} [DecidableEq α] (k : α) (v : β)
    (d : List (α × β)) : dictGet k (dictInsert k v d) = some v := by
  induction d with
  | nil => simp [dictInsert, dictGet]
  | cons p rest ih =>
      by_cases h : k = p.1
      · simp [dictInsert, dictGet, h]
      · simp only [dictInsert, dictGet]
        rw [if_neg h, dictGet, if_neg h]
        exact ih

theorem dictGet_dictInsert_ne {α β : Type} [DecidableEq α] {t k : α} (v : β)
    (d : List (α × β)) (h : t ≠ k) : dictGet t (dictInsert k v d) = dictGet t d := by
  induction d with
  | nil => simp [dictInsert, dictGet, h]
  | cons p rest ih =>
      by_cases hk : k = p.1
      · subst hk
        simp [dictInsert, dictGet, h]
      · simp only [dictInsert]
        rw [if_neg hk]
        by_cases ht : t = p.1
        · simp [dictGet, ht]
        · simp only [dictGet]
          rw [if_neg ht, if_neg ht]
          exact ih

theorem dictGet_foldl_dictInsert (t : Timestamp) :
    ∀ (es : List (ℕ × Timestamp × RawRow)) (init : List (Timestamp × ℚ)),
      dictGet t (es.foldl (fun acc e => dictInsert e.2.1 (sum_val e.2.2) acc) init) =
        ((es.filter (fun e => e.2.1 = t)).getLast?).elim (dictGet t init)
          (fun e => some (sum_val e.2.2)) := by
  intro es
  induction es with
  | nil => intro init; simp
  | cons e rest ih =>
      intro init
      rw [List.foldl_cons, ih]
      by_cases he : e.2.1 = t
      · rw [List.filter_cons_of_pos (by simpa using he)]
        cases hfil : rest.filter (fun e => decide (e.2.1 = t)) with
        | nil =>
            simp only [List.getLast?_nil, List.getLast?_singleton, Option.elim_none,
              Option.elim_some]
            rw [he]
            exact dictGet_dictInsert_self t (sum_val e.2.2) init
        | cons a as =>
            rw [List.getLast?_cons_cons]
            cases hlast : (a :: as).getLast? with
            | none => simp [List.getLast?] at hlast
            | some x => rfl
      · rw [List.filter_cons_of_neg (by simpa using he)]
        rw [dictGet_dictInsert_ne _ _ (fun hh => he hh.symm)]

theorem mem_dupScan {x : Timestamp × ℕ} :
    ∀ (es : List (ℕ × Timestamp × RawRow)) (seen : List Timestamp),
      x ∈ dupScan seen es → ∃ e ∈ es, x = (e.2.1, e.1 + 2) := by
  intro es
  induction es with
  | nil => intro seen h; simp [dupScan] at h
  | cons e rest ih =>
      intro seen h
      rw [dupScan] at h
      rcases List.mem_append.mp h with h1 | h2
      · refine ⟨e, List.mem_cons_self e rest, ?_⟩
        by_cases hs : e.2.1 ∈ seen
        · rw [if_pos hs] at h1; simpa using h1
        · rw [if_neg hs] at h1; simp at h1
      · rcases ih (e.2.1 :: seen) h2 with ⟨f, hf, hx⟩
        exact ⟨f, List.mem_cons_of_mem e hf, hx⟩

theorem dupScan_pairwise :
    ∀ (es : List (ℕ × Timestamp × RawRow)) (seen : List Timestamp),
      List.Pairwise (fun a b => a.1 < b.1) es →
      List.Pairwise (· < ·) ((dupScan seen es).map Prod.snd) := by
  intro es
  induction es with
  | nil => intro seen h; simp [dupScan]
  | cons e rest ih =>
      intro seen h
      rcases List.pairwise_cons.mp h with ⟨hlt, hrest⟩
      rw [dupScan]
      by_cases hs : e.2.1 ∈ seen
      · rw [if_pos hs, List.singleton_append, List.map_cons]
        refine List.pairwise_cons.mpr ⟨?_, ih (e.2.1 :: seen) hrest⟩
        intro n hn
        rcases List.mem_map.mp hn with ⟨x, hx, hxn⟩
        rcases mem_dupScan rest (e.2.1 :: seen) hx with ⟨f, hf, hxf⟩
        have := hlt f hf
        subst hxn
        rw [hxf]
        simpa using by omega
      · rw [if_neg hs, List.nil_append]
        exact ih (e.2.1 :: seen) hrest

theorem dupScan_append :
    ∀ (es1 es2 : List (ℕ × Timestamp × RawRow)) (seen : List Timestamp),
      dupScan seen (es1 ++ es2) =
        dupScan seen es1 ++ dupScan (es1.reverse.map (fun e => e.2.1) ++ seen) es2 := by
  intro es1
  induction es1 with
  | nil => intro es2 seen; simp [dupScan]
  | cons e rest ih =>
      intro es2 seen
      rw [List.cons_append, dupScan, dupScan, ih es2 (e.2.1 :: seen), List.append_assoc]
      have hseen : rest.reverse.map (fun e => e.2.1) ++ e.2.1 :: seen =
          (e :: rest).reverse.map (fun e => e.2.1) ++ seen := by
        simp
      rw [hseen]

theorem dupScan_filter_nil (d : Timestamp) :
    ∀ (es : List (ℕ × Timestamp × RawRow)) (seen : List Timestamp),
      (∀ e ∈ es, e.2.1 ≠ d) →
      (dupScan seen es).filter (fun x => x.1 = d) = [] := by
  intro es seen hne
  refine List.filter_eq_nil_iff.mpr ?_
  intro x hx
  rcases mem_dupScan es seen hx with ⟨e, he, hxe⟩
  have := hne e he
  simp [hxe, this]

theorem invalidEntry_fst {e : ℕ × Timestamp × RawRow} {y : ℕ × ℕ}
    (h : (if 0 < invalid_count e.2.2 then some (e.1 + 2, invalid_count e.2.2) else none) =
      some y) : y = (e.1 + 2, invalid_count e.2.2) ∧ 0 < invalid_count e.2.2 := by
  by_cases hc : 0 < invalid_count e.2.2
  · rw [if_pos hc] at h
    exact ⟨(Option.some.injEq _ _ ▸ h).symm, hc⟩
  · rw [if_neg hc] at h
    exact absurd h (by simp)

theorem mem_invalid_log {y : ℕ × ℕ} {rows : List RawRow} (h : y ∈ invalid_log rows) :
    ∃ e ∈ validList 0 rows, y = (e.1 + 2, invalid_count e.2.2) ∧ 0 < invalid_count e.2.2 := by
  rcases List.mem_filterMap.mp h with ⟨e, he, hy⟩
  exact ⟨e, he, invalidEntry_fst hy⟩

theorem invalidFrom_pairwise :
    ∀ es : List (ℕ × Timestamp × RawRow), List.Pairwise (fun a b => a.1 < b.1) es →
      List.Pairwise (· < ·)
        ((es.filterMap (fun e =>
          if 0 < invalid_count e.2.2 then some (e.1 + 2, invalid_count e.2.2) else none)).map
            Prod.fst) := by
  intro es
  induction es with
  | nil => intro h; simp
  | cons e rest ih =>
      intro h
      rcases List.pairwise_cons.mp h with ⟨hlt, hrest⟩
      rw [List.filterMap_cons]
      by_cases hc : 0 < invalid_count e.2.2
      · rw [if_pos hc, List.map_cons]
        refine List.pairwise_cons.mpr ⟨?_, ih hrest⟩
        intro n hn
        rcases List.mem_map.mp hn with ⟨x, hx, hxn⟩
        rcases List.mem_filterMap.mp hx with ⟨f, hf, hfx⟩
        rcases invalidEntry_fst hfx with ⟨hfx1, -⟩
        have hef := hlt f hf
        rw [← hxn, hfx1]
        simp only
        omega
      · rw [if_neg hc]
        exact ih hrest

theorem invalid_log_pairwise (rows : List RawRow) :
    List.Pairwise (· < ·) ((invalid_log rows).map Prod.fst) :=
  invalidFrom_pairwise (validList 0 rows) (validList_pairwise rows 0)

theorem data_dict_validPairs (rows : List RawRow) :
    data_dict rows =
      (validPairs rows).foldl (fun acc p => dictInsert p.1 (sum_val p.2) acc) [] := by
  rw [data_dict, ← validList_map_snd rows 0, List.foldl_map]

theorem fst_mem_dictInsert {α β : Type} [DecidableEq α] {a k : α} {v : β}
    {d : List (α × β)} (h : a ∈ (dictInsert k v d).map Prod.fst) :
    a = k ∨ a ∈ d.map Prod.fst := by
  induction d with
  | nil => simp [dictInsert] at h; exact Or.inl h
  | cons p rest ih =>
      by_cases hk : k = p.1
      · rw [dictInsert, if_pos hk] at h
        rcases List.mem_map.mp h with ⟨x, hx, hxa⟩
        rcases List.mem_cons.mp hx with h1 | h2
        · exact Or.inl (by rw [← hxa, h1])
        · exact Or.inr (List.mem_map.mpr ⟨x, List.mem_cons_of_mem p h2, hxa⟩)
      · rw [dictInsert, if_neg hk] at h
        rcases List.mem_map.mp h with ⟨x, hx, hxa⟩
        rcases List.mem_cons.mp hx with h1 | h2
        · exact Or.inr (List.mem_map.mpr ⟨p, List.mem_cons_self p rest, by
            rw [h1] at hxa; exact hxa⟩)
        · rcases ih (List.mem_map.mpr ⟨x, h2, hxa⟩) with h3 | h4
          · exact Or.inl h3
          · exact Or.inr (by
              rcases List.mem_map.mp h4 with ⟨z, hz, hza⟩
              exact List.mem_map.mpr ⟨z, List.mem_cons_of_mem p hz, hza⟩)

theorem process_files_keys :
    ∀ (files : List (String × Except String (List RawRow)))
      (acc : List (String × List (Timestamp × ℚ))) (x : String × List (Timestamp × ℚ)),
      x ∈ files.foldl (fun acc f =>
        match f.2 with
        | Except.error _ => acc
        | Except.ok rows => dictInsert f.1 (data_dict rows) acc) acc →
      x.1 ∈ acc.map Prod.fst ∨ ∃ f ∈ files, f.1 = x.1 := by
  intro files
  induction files with
  | nil => intro acc x h; simp at h; exact Or.inl (List.mem_map.mpr ⟨x, h, rfl⟩)
  | cons f rest ih =>
      intro acc x h
      rw [List.foldl_cons] at h
      rcases hf : f.2 with e | rows
      · rw [hf] at h
        rcases ih acc x h with h1 | ⟨g, hg, hgx⟩
        · exact Or.inl h1
        · exact Or.inr ⟨g, List.mem_cons_of_mem f hg, hgx⟩
      · rw [hf] at h
        rcases ih (dictInsert f.1 (data_dict rows) acc) x h with h1 | ⟨g, hg, hgx⟩
        · rcases fst_mem_dictInsert h1 with h2 | h3
          · exact Or.inr ⟨f, List.mem_cons_self f rest, h2.symm⟩
          · exact Or.inl h3
        · exact Or.inr ⟨g, List.mem_cons_of_mem f hg, hgx⟩

theorem toString_String (s : String) : toString s = s := rfl

theorem validList_filter_key_nil {l : List RawRow} {d : Timestamp} (i : ℕ)
    (h : ∀ r ∈ l, to_datetime r.dateCell ≠ some d) :
    (validList i l).filter (fun e => e.2.1 = d) = [] := by
  refine List.filter_eq_nil_iff.mpr ?_
  intro e he
  rcases mem_validList l i he with ⟨j, -, hget, hdt⟩
  have hmem : e.2.2 ∈ l := List.get?_mem hget
  have hne : e.2.1 ≠ d := fun hh => h e.2.2 hmem (hh ▸ hdt)
  simp [hne]

theorem invalid_filterMap_filter_nil {es : List (ℕ × Timestamp × RawRow)} {k : ℕ}
    (h : ∀ e ∈ es, e.1 + 2 ≠ k) :
    (es.filterMap (fun e =>
      if 0 < invalid_count e.2.2 then some (e.1 + 2, invalid_count e.2.2) else none)).filter
        (fun y => y.1 = k) = [] := by
  refine List.filter_eq_nil_iff.mpr ?_
  intro y hy
  rcases List.mem_filterMap.mp hy with ⟨f, hf, hfy⟩
  rcases invalidEntry_fst hfy with ⟨hy1, -⟩
  have := h f hf
  simp [hy1, this]

theorem sum_int_of_int_cells :
    ∀ l : List Cell,
      (∀ c ∈ l, to_numeric c = none ∨ ∃ n : ℤ, to_numeric c = some (n : ℚ)) →
      ∃ n : ℤ, (l.map (fun c => (to_numeric c).getD 0)).sum = (n : ℚ) := by
  intro l
  induction l with
  | nil => intro h; exact ⟨0, by simp⟩
  | cons c cs ih =>
      intro h
      rcases ih (fun x hx => h x (List.mem_cons_of_mem c hx)) with ⟨m, hm⟩
      rcases h c (List.mem_cons_self c cs) with hc | ⟨n, hn⟩
      · exact ⟨m, by simp [hc, hm]⟩
      · exact ⟨n + m, by push_cast; simp [hn, hm]⟩

/-! ### The claims -/

/-- Claim C2 (amended): an amount cell's coercion succeeds exactly when the
cell is numeric, a boolean (converted to 1/0), or a numeral-only string;
the cell contributes its coerced value (0 when coercion fails) to the row
total, and increments the row's invalid count exactly when coercion fails.
Booleans coerce rather than count as invalid. -/
theorem claim_C2 (dc : Cell) (pre post : List Cell) (c : Cell) :
    sum_val ⟨dc, pre ++ c :: post⟩ = sum_val ⟨dc, pre ++ post⟩ + (to_numeric c).getD 0
    ∧ invalid_count ⟨dc, pre ++ c :: post⟩ =
        invalid_count ⟨dc, pre ++ post⟩ + (if (to_numeric c).isNone then 1 else 0)
    ∧ ((to_numeric c).isSome ↔
        (∃ q, c = Cell.num q) ∨ (∃ b, c = Cell.bool b) ∨
          (∃ s, c = Cell.str s ∧ (parseNumeral s).isSome)) := by
  refine ⟨?_, ?_, ?_⟩
  · simp [sum_val, List.map_append, List.sum_append]
    ring
  · simp only [invalid_count, List.countP_append, List.countP_cons]
    cases to_numeric c <;> simp <;> omega
  · cases c <;> simp [to_numeric]

/-- Counterexample to claim C2 as stated: a boolean amount cell does not
contribute 0 and is not counted invalid; `pd.to_numeric` coerces `True`
to 1, so the row total is 1 and the invalid count is 0. -/
theorem claim_C2_counterexample :
    to_numeric (Cell.bool true) = some 1
    ∧ sum_val ⟨Cell.str "2024-01-01",
        [Cell.bool true, Cell.num 0, Cell.num 0, Cell.num 0]⟩ = 1
    ∧ invalid_count ⟨Cell.str "2024-01-01",
        [Cell.bool true, Cell.num 0, Cell.num 0, Cell.num 0]⟩ = 0 := by
  refine ⟨rfl, ?_, by decide⟩
  simp [sum_val, to_numeric]

/-- Claim C3 (amended): every emitted invalid-cells diagnostic line is
exactly "Warning: N non-integer value(s) in columns B-E of row R in FILE.
Treated as 0." and every duplicate-date line is exactly "Warning: Duplicate
date D in row R of FILE. Overwriting previous entry.", with N, R, D, FILE
taken from the corresponding log entry. -/
theorem claim_C3 (rows : List RawRow) (filename : String) :
    (∀ line ∈ invalid_warnings rows filename, ∃ e ∈ invalid_log rows,
      line = "Warning: " ++ toString e.2 ++ " non-integer value(s) in columns B-E of row "
        ++ toString e.1 ++ " in " ++ filename ++ ". Treated as 0.")
    ∧ (∀ line ∈ duplicate_warnings rows filename, ∃ e ∈ duplicate_log rows,
      line = "Warning: Duplicate date " ++ timestampStr e.1 ++ " in row " ++ toString e.2
        ++ " of " ++ filename ++ ". Overwriting previous entry.") := by
  constructor
  · intro line hline
    rcases List.mem_map.mp hline with ⟨e, he, hl⟩
    refine ⟨e, he, ?_⟩
    rw [← hl]
    simp [invalid_warning, String.append_assoc, toString_String]
  · intro line hline
    rcases List.mem_map.mp hline with ⟨e, he, hl⟩
    refine ⟨e, he, ?_⟩
    rw [← hl]
    simp [duplicate_warning, String.append_assoc, toString_String]

theorem claim_C3_witness :
    ("Warning: 2 non-integer value(s) in columns B-E of row 2 in a.xlsx. Treated as 0." ∈
      invalid_warnings
        [⟨Cell.str "2024-01-01", [Cell.str "x", Cell.num 1, Cell.empty, Cell.num 2]⟩]
        "a.xlsx")
    ∧ ∃ e ∈ invalid_log
        [⟨Cell.str "2024-01-01", [Cell.str "x", Cell.num 1, Cell.empty, Cell.num 2]⟩],
        "Warning: 2 non-integer value(s) in columns B-E of row 2 in a.xlsx. Treated as 0." =
          "Warning: " ++ toString e.2 ++ " non-integer value(s) in columns B-E of row "
            ++ toString e.1 ++ " in " ++ "a.xlsx" ++ ". Treated as 0." :=
  ⟨by decide,
    (claim_C3 [⟨Cell.str "2024-01-01", [Cell.str "x", Cell.num 1, Cell.empty, Cell.num 2]⟩]
      "a.xlsx").1 _ (by decide)⟩

/-- Counterexample to claim C3 as stated: the lines the code emits carry a
"Warning: " prefix, mention "columns B-E", and differ in wording and
punctuation from the spec's templates, so they are not byte-identical to
the spec's strings. -/
theorem claim_C3_counterexample :
    invalid_warnings
        [⟨Cell.str "2024-01-01", [Cell.str "x", Cell.num 1, Cell.empty, Cell.num 2]⟩,
         ⟨Cell.str "2024-01-01", [Cell.num 1, Cell.num 1, Cell.num 1, Cell.num 1]⟩]
        "a.xlsx" =
      ["Warning: 2 non-integer value(s) in columns B-E of row 2 in a.xlsx. Treated as 0."]
    ∧ duplicate_warnings
        [⟨Cell.str "2024-01-01", [Cell.str "x", Cell.num 1, Cell.empty, Cell.num 2]⟩,
         ⟨Cell.str "2024-01-01", [Cell.num 1, Cell.num 1, Cell.num 1, Cell.num 1]⟩]
        "a.xlsx" =
      ["Warning: Duplicate date 2024-01-01 00:00:00 in row 3 of a.xlsx. Overwriting previous entry."]
    ∧ "Warning: 2 non-integer value(s) in columns B-E of row 2 in a.xlsx. Treated as 0." ≠
        spec_invalid_line 2 2 "a.xlsx"
    ∧ "Warning: Duplicate date 2024-01-01 00:00:00 in row 3 of a.xlsx. Overwriting previous entry." ≠
        spec_duplicate_line ⟨2024, 1, 1, 0⟩ 3 "a.xlsx" := by
  refine ⟨by decide, by decide, by decide, by decide⟩

/-- Claim C9: the three-row scenario — two rows dated 2024-01-01 with
amounts summing 10 and 20, then a row with unparseable date "bad" — yields
the series `{2024-01-01 : 20}`, no invalid-cell entries, one duplicate
entry for the second row (external index 3), 2 valid rows out of 3 total,
and 1 date error. -/
theorem claim_C9 :
    process_file
      [⟨Cell.str "2024-01-01", [Cell.num 1, Cell.num 2, Cell.num 3, Cell.num 4]⟩,
       ⟨Cell.str "2024-01-01", [Cell.num 5, Cell.num 5, Cell.num 5, Cell.num 5]⟩,
       ⟨Cell.str "bad", [Cell.num 1, Cell.num 1, Cell.num 1, Cell.num 1]⟩] =
      ⟨[(⟨2024, 1, 1, 0⟩, 20)], [], [(⟨2024, 1, 1, 0⟩, 3)], 2, 1, 3⟩ := by
  simp [process_file, data_dict, invalid_log, duplicate_log, num_date_errors, validList,
    to_datetime, parseDateString, fourDigits, twoDigits, digitsVal, mkDate, dictInsert,
    dupScan, sum_val, invalid_count, to_numeric, parseNumeral, parseUnsigned]
  norm_num

/-- Claim C10: duplicate detection and series keying use the full parsed
datetime value, not the calendar date: two rows parsing to the same
calendar day but different times of day give two distinct series keys and
no duplicate-log entry. -/
theorem claim_C10 (r1 r2 : RawRow) (t1 t2 : Timestamp)
    (h1 : to_datetime r1.dateCell = some t1) (h2 : to_datetime r2.dateCell = some t2)
    (hday : t1.year = t2.year ∧ t1.month = t2.month ∧ t1.day = t2.day)
    (htime : t1.seconds ≠ t2.seconds) :
    t1 ≠ t2
    ∧ data_dict [r1, r2] = [(t1, sum_val r1), (t2, sum_val r2)]
    ∧ duplicate_log [r1, r2] = [] := by
  have hne : t1 ≠ t2 := fun h => htime (by rw [h])
  have hne' : t2 ≠ t1 := fun h => hne h.symm
  have hlist : validList 0 [r1, r2] = [(0, t1, r1), (1, t2, r2)] := by
    rw [validList_cons_valid _ _ _ _ h1, validList_cons_valid _ _ _ _ h2]
    rfl
  refine ⟨hne, ?_, ?_⟩
  · rw [data_dict, hlist]
    simp [dictInsert, hne']
  · rw [duplicate_log, hlist]
    simp [dupScan, hne']

theorem claim_C10_witness :
    to_datetime (RawRow.mk (Cell.datetime ⟨2024, 1, 1, 0⟩) [Cell.num 1]).dateCell =
        some ⟨2024, 1, 1, 0⟩
    ∧ to_datetime (RawRow.mk (Cell.datetime ⟨2024, 1, 1, 3600⟩) [Cell.num 2]).dateCell =
        some ⟨2024, 1, 1, 3600⟩
    ∧ ((2024 : ℕ) = 2024 ∧ (1 : ℕ) = 1 ∧ (1 : ℕ) = 1)
    ∧ (0 : ℚ) ≠ 3600
    ∧ ((⟨2024, 1, 1, 0⟩ : Timestamp) ≠ ⟨2024, 1, 1, 3600⟩
        ∧ data_dict [RawRow.mk (Cell.datetime ⟨2024, 1, 1, 0⟩) [Cell.num 1],
            RawRow.mk (Cell.datetime ⟨2024, 1, 1, 3600⟩) [Cell.num 2]] =
          [(⟨2024, 1, 1, 0⟩, sum_val (RawRow.mk (Cell.datetime ⟨2024, 1, 1, 0⟩) [Cell.num 1])),
           (⟨2024, 1, 1, 3600⟩, sum_val (RawRow.mk (Cell.datetime ⟨2024, 1, 1, 3600⟩) [Cell.num 2]))]
        ∧ duplicate_log [RawRow.mk (Cell.datetime ⟨2024, 1, 1, 0⟩) [Cell.num 1],
            RawRow.mk (Cell.datetime ⟨2024, 1, 1, 3600⟩) [Cell.num 2]] = []) :=
  ⟨rfl, rfl, by decide, by decide,
    claim_C10 _ _ _ _ rfl rfl (by decide) (by decide)⟩

/-- Claim C4 (amended): for a row with a parseable date that is the last
row of its date, the value stored in the series is the row's sum of
per-cell numeric coercions, with non-coercible cells contributing 0; that
value is a rational that is an integer whenever every coercible amount
cell coerces to an integer (but not in general, see the counterexample). -/
theorem claim_C4 (pre post : List RawRow) (r : RawRow) (d : Timestamp)
    (h : to_datetime r.dateCell = some d)
    (hlast : ∀ r' ∈ post, to_datetime r'.dateCell ≠ some d) :
    dictGet d (data_dict (pre ++ r :: post)) = some (sum_val r)
    ∧ ((∀ c ∈ r.amounts, to_numeric c = none ∨ ∃ n : ℤ, to_numeric c = some (n : ℚ)) →
        ∃ n : ℤ, sum_val r = (n : ℚ)) := by
  constructor
  · rw [data_dict, validList_append pre (r :: post) 0, validList_cons_valid _ _ _ _ h,
      dictGet_foldl_dictInsert, List.filter_append, List.filter_cons_of_pos (by simp),
      validList_filter_key_nil (0 + pre.length + 1) hlast, List.getLast?_concat]
    rfl
  · intro hint
    rw [sum_val]
    exact sum_int_of_int_cells r.amounts hint

theorem claim_C4_witness :
    to_datetime (RawRow.mk (Cell.str "2024-01-01")
        [Cell.num 1, Cell.num 2, Cell.num 3, Cell.num 4]).dateCell =
      some ⟨2024, 1, 1, 0⟩
    ∧ (∀ r' ∈ ([] : List RawRow), to_datetime r'.dateCell ≠ some ⟨2024, 1, 1, 0⟩)
    ∧ (dictGet ⟨2024, 1, 1, 0⟩
        (data_dict ([] ++ RawRow.mk (Cell.str "2024-01-01")
          [Cell.num 1, Cell.num 2, Cell.num 3, Cell.num 4] :: [])) =
        some (sum_val (RawRow.mk (Cell.str "2024-01-01")
          [Cell.num 1, Cell.num 2, Cell.num 3, Cell.num 4]))
      ∧ ((∀ c ∈ (RawRow.mk (Cell.str "2024-01-01")
            [Cell.num 1, Cell.num 2, Cell.num 3, Cell.num 4]).amounts,
            to_numeric c = none ∨ ∃ n : ℤ, to_numeric c = some (n : ℚ)) →
          ∃ n : ℤ, sum_val (RawRow.mk (Cell.str "2024-01-01")
            [Cell.num 1, Cell.num 2, Cell.num 3, Cell.num 4]) = (n : ℚ))) :=
  ⟨by decide, by simp,
    claim_C4 [] [] (RawRow.mk (Cell.str "2024-01-01")
      [Cell.num 1, Cell.num 2, Cell.num 3, Cell.num 4]) ⟨2024, 1, 1, 0⟩
      (by decide) (by simp)⟩

/-- Counterexample to claim C4 as stated: an amount cell holding the
numeral string "3.7" coerces to the non-integral rational 37/10 (pandas
`to_numeric` does not truncate), so the stored RowTotal is not an
integer. -/
theorem claim_C4_counterexample :
    dictGet ⟨2024, 1, 1, 0⟩
        (data_dict [⟨Cell.str "2024-01-01",
          [Cell.str "3.7", Cell.num 0, Cell.num 0, Cell.num 0]⟩]) =
      some (37 / 10 : ℚ)
    ∧ ∀ n : ℤ, (37 / 10 : ℚ) ≠ (n : ℚ) := by
  constructor
  · simp [data_dict, validList, to_datetime, parseDateString, fourDigits, twoDigits,
      digitsVal, mkDate, dictInsert, dictGet, sum_val, to_numeric, parseNumeral,
      parseUnsigned]
    norm_num
  · intro n hn
    rw [div_eq_iff (by norm_num : (10 : ℚ) ≠ 0)] at hn
    have h2 : (37 : ℤ) = n * 10 := by exact_mod_cast hn
    omega

/-- Claim C5: a row whose date cell fails to parse contributes nothing to
the series, increments the date-error count by exactly 1, and produces no
entry (at its external row index) in the invalid-cells or duplicates
logs. -/
theorem claim_C5 (pre post : List RawRow) (r : RawRow)
    (h : to_datetime r.dateCell = none) :
    data_dict (pre ++ r :: post) = data_dict (pre ++ post)
    ∧ num_date_errors (pre ++ r :: post) = num_date_errors (pre ++ post) + 1
    ∧ (∀ e ∈ invalid_log (pre ++ r :: post), e.1 ≠ pre.length + 2)
    ∧ (∀ x ∈ duplicate_log (pre ++ r :: post), x.2 ≠ pre.length + 2) := by
  have hsplit : validList 0 (pre ++ r :: post) =
      validList 0 pre ++ validList (0 + pre.length + 1) post := by
    rw [validList_append, validList_cons_invalid _ _ _ h]
  refine ⟨?_, ?_, ?_, ?_⟩
  · rw [data_dict_validPairs, data_dict_validPairs]
    have : validPairs (pre ++ r :: post) = validPairs (pre ++ post) := by
      simp [validPairs, List.filterMap_append, List.filterMap_cons, h]
    rw [this]
  · simp only [num_date_errors, List.countP_append, List.countP_cons, h]
    simp only [Option.isNone_none, if_pos]
    omega
  · intro e he
    rcases mem_invalid_log he with ⟨f, hf, hfe, -⟩
    rw [hsplit] at hf
    rw [hfe]
    simp only
    rcases List.mem_append.mp hf with h1 | h2
    · have := mem_validList_upper h1
      omega
    · have := mem_validList_lower h2
      omega
  · intro x hx
    rw [duplicate_log, hsplit] at hx
    rcases mem_dupScan _ _ hx with ⟨f, hf, hxf⟩
    rw [hxf]
    simp only
    rcases List.mem_append.mp hf with h1 | h2
    · have := mem_validList_upper h1
      omega
    · have := mem_validList_lower h2
      omega

theorem claim_C5_witness :
    to_datetime (RawRow.mk (Cell.str "bad")
        [Cell.num 1, Cell.num 1, Cell.num 1, Cell.num 1]).dateCell = none
    ∧ (data_dict ([] ++ RawRow.mk (Cell.str "bad")
          [Cell.num 1, Cell.num 1, Cell.num 1, Cell.num 1] :: []) = data_dict ([] ++ [])
      ∧ num_date_errors ([] ++ RawRow.mk (Cell.str "bad")
          [Cell.num 1, Cell.num 1, Cell.num 1, Cell.num 1] :: []) =
          num_date_errors ([] ++ []) + 1
      ∧ (∀ e ∈ invalid_log ([] ++ RawRow.mk (Cell.str "bad")
          [Cell.num 1, Cell.num 1, Cell.num 1, Cell.num 1] :: []),
          e.1 ≠ List.length ([] : List RawRow) + 2)
      ∧ (∀ x ∈ duplicate_log ([] ++ RawRow.mk (Cell.str "bad")
          [Cell.num 1, Cell.num 1, Cell.num 1, Cell.num 1] :: []),
          x.2 ≠ List.length ([] : List RawRow) + 2)) :=
  ⟨by decide,
    claim_C5 [] [] (RawRow.mk (Cell.str "bad")
      [Cell.num 1, Cell.num 1, Cell.num 1, Cell.num 1]) (by decide)⟩

/-- Claim C7: a row with a parseable date and amount cells
`["abc", 5, None, 3]` has RowTotal 8, and the invalid-cells log contains
exactly one entry at that row's external index, with count 2. -/
theorem claim_C7 (pre post : List RawRow) (dc : Cell) (d : Timestamp)
    (h : to_datetime dc = some d) :
    sum_val ⟨dc, [Cell.str "abc", Cell.num 5, Cell.empty, Cell.num 3]⟩ = 8
    ∧ (invalid_log
        (pre ++ ⟨dc, [Cell.str "abc", Cell.num 5, Cell.empty, Cell.num 3]⟩ :: post)).filter
          (fun e => e.1 = pre.length + 2) = [(pre.length + 2, 2)] := by
  constructor
  · simp [sum_val, to_numeric, parseNumeral, parseUnsigned]
    norm_num
  · have hcnt : invalid_count
        ⟨dc, [Cell.str "abc", Cell.num 5, Cell.empty, Cell.num 3]⟩ = 2 := by
      simp only [invalid_count]
      decide
    rw [invalid_log, validList_append pre _ 0, validList_cons_valid _ _ _ _ h,
      List.filterMap_append, List.filterMap_cons]
    simp only [hcnt]
    rw [if_pos (by omega), List.filter_append,
      List.filter_cons_of_pos (by simp), invalid_filterMap_filter_nil (fun e he => by
        have := mem_validList_upper he
        omega),
      invalid_filterMap_filter_nil (fun e he => by
        have := mem_validList_lower he
        omega)]
    simp

theorem claim_C7_witness :
    to_datetime (Cell.str "2024-01-01") = some ⟨2024, 1, 1, 0⟩
    ∧ (sum_val ⟨Cell.str "2024-01-01",
          [Cell.str "abc", Cell.num 5, Cell.empty, Cell.num 3]⟩ = 8
      ∧ (invalid_log
          ([] ++ RawRow.mk (Cell.str "2024-01-01")
            [Cell.str "abc", Cell.num 5, Cell.empty, Cell.num 3] :: [])).filter
            (fun e => e.1 = List.length ([] : List RawRow) + 2) =
          [(List.length ([] : List RawRow) + 2, 2)]) :=
  ⟨by decide, claim_C7 [] [] (Cell.str "2024-01-01") ⟨2024, 1, 1, 0⟩ (by decide)⟩

/-- Claim C6: a file whose read fails is skipped — the batch result is the
same as if the file were absent — and, when no other file shares its name,
that name has no entry in the aggregate result; the batch (a total
function) is never aborted by a failing file. -/
theorem claim_C6 (files1 files2 : List (String × Except String (List RawRow)))
    (name err : String) :
    process_files (files1 ++ (name, Except.error err) :: files2) =
      process_files (files1 ++ files2)
    ∧ ((∀ f ∈ files1 ++ files2, f.1 ≠ name) →
        ∀ v, (name, v) ∉ process_files (files1 ++ (name, Except.error err) :: files2)) := by
  have heq : process_files (files1 ++ (name, Except.error err) :: files2) =
      process_files (files1 ++ files2) := by
    rw [process_files, process_files, List.foldl_append, List.foldl_append, List.foldl_cons]
  refine ⟨heq, ?_⟩
  intro hnone v hv
  rw [heq, process_files] at hv
  rcases process_files_keys (files1 ++ files2) [] (name, v) hv with h2 | ⟨f, hf, hfx⟩
  · simp at h2
  · exact hnone f hf hfx

theorem claim_C6_witness :
    (∀ f ∈ [("b.xlsx", Except.ok ([] : List RawRow))] ++
        ([] : List (String × Except String (List RawRow))), f.1 ≠ "a.xlsx")
    ∧ (process_files ([("b.xlsx", Except.ok ([] : List RawRow))] ++
          ("a.xlsx", Except.error "corrupt") ::
            ([] : List (String × Except String (List RawRow)))) =
        process_files ([("b.xlsx", Except.ok ([] : List RawRow))] ++ []))
    ∧ ∀ v, ("a.xlsx", v) ∉ process_files ([("b.xlsx", Except.ok ([] : List RawRow))] ++
        ("a.xlsx", Except.error "corrupt") ::
          ([] : List (String × Except String (List RawRow)))) :=
  ⟨by decide,
    (claim_C6 [("b.xlsx", Except.ok ([] : List RawRow))] [] "a.xlsx" "corrupt").1,
    (claim_C6 [("b.xlsx", Except.ok ([] : List RawRow))] [] "a.xlsx" "corrupt").2
      (by decide)⟩

/-- Claim C8: both diagnostic logs are emitted in strictly ascending
external row index, and every log entry's index is the zero-based data
index of an actual row of the file plus 2. -/
theorem claim_C8 (rows : List RawRow) :
    List.Pairwise (· < ·) ((invalid_log rows).map Prod.fst)
    ∧ List.Pairwise (· < ·) ((duplicate_log rows).map Prod.snd)
    ∧ (∀ e ∈ invalid_log rows, ∃ i r, rows.get? i = some r ∧ e.1 = i + 2)
    ∧ (∀ x ∈ duplicate_log rows, ∃ i r, rows.get? i = some r ∧ x.2 = i + 2) := by
  refine ⟨invalid_log_pairwise rows, ?_, ?_, ?_⟩
  · rw [duplicate_log]
    exact dupScan_pairwise _ [] (validList_pairwise rows 0)
  · intro e he
    rcases mem_invalid_log he with ⟨f, hf, hfe, -⟩
    rcases mem_validList rows 0 hf with ⟨j, hj, hget, -⟩
    refine ⟨j, f.2.2, hget, ?_⟩
    rw [hfe]
    simp only
    omega
  · intro x hx
    rw [duplicate_log] at hx
    rcases mem_dupScan _ _ hx with ⟨f, hf, hxf⟩
    rcases mem_validList rows 0 hf with ⟨j, hj, hget, -⟩
    refine ⟨j, f.2.2, hget, ?_⟩
    rw [hxf]
    simp only
    omega

theorem claim_C8_witness :
    ((2, 1) ∈ invalid_log
      [⟨Cell.str "2024-01-01", [Cell.empty, Cell.num 1, Cell.num 1, Cell.num 1]⟩])
    ∧ ∃ i r, [(⟨Cell.str "2024-01-01",
          [Cell.empty, Cell.num 1, Cell.num 1, Cell.num 1]⟩ : RawRow)].get? i = some r ∧
        (2, 1).1 = i + 2 :=
  ⟨by decide,
    (claim_C8 [⟨Cell.str "2024-01-01",
      [Cell.empty, Cell.num 1, Cell.num 1, Cell.num 1]⟩]).2.2.1 (2, 1) (by decide)⟩

/-- Claim C1: when exactly two rows of the file parse to the date `d` —
an earlier row `r1` and a later row `r2` — the series entry for `d` is
`r2`'s total (last write wins), and the duplicates log contains exactly
one entry for `d`, carrying `r2`'s external row index. -/
theorem claim_C1 (l1 l2 l3 : List RawRow) (r1 r2 : RawRow) (d : Timestamp)
    (h1 : to_datetime r1.dateCell = some d)
    (h2 : to_datetime r2.dateCell = some d)
    (hother : ∀ r ∈ l1 ++ l2 ++ l3, to_datetime r.dateCell ≠ some d) :
    dictGet d (data_dict (l1 ++ r1 :: (l2 ++ r2 :: l3))) = some (sum_val r2)
    ∧ (duplicate_log (l1 ++ r1 :: (l2 ++ r2 :: l3))).filter (fun x => x.1 = d) =
        [(d, l1.length + 1 + l2.length + 2)] := by
  have hl1 : ∀ r ∈ l1, to_datetime r.dateCell ≠ some d := fun r hr =>
    hother r (by simp [hr])
  have hl2 : ∀ r ∈ l2, to_datetime r.dateCell ≠ some d := fun r hr =>
    hother r (by simp [hr])
  have hl3 : ∀ r ∈ l3, to_datetime r.dateCell ≠ some d := fun r hr =>
    hother r (by simp [hr])
  have hkA : ∀ e ∈ validList 0 l1, e.2.1 ≠ d := by
    intro e he hkey
    rcases mem_validList _ _ he with ⟨j, -, hget, hdt⟩
    exact hl1 e.2.2 (List.get?_mem hget) (hkey ▸ hdt)
  have hkB : ∀ e ∈ validList (0 + l1.length + 1) l2, e.2.1 ≠ d := by
    intro e he hkey
    rcases mem_validList _ _ he with ⟨j, -, hget, hdt⟩
    exact hl2 e.2.2 (List.get?_mem hget) (hkey ▸ hdt)
  have hkC : ∀ e ∈ validList (0 + l1.length + 1 + l2.length + 1) l3, e.2.1 ≠ d := by
    intro e he hkey
    rcases mem_validList _ _ he with ⟨j, -, hget, hdt⟩
    exact hl3 e.2.2 (List.get?_mem hget) (hkey ▸ hdt)
  have hv : validList 0 (l1 ++ r1 :: (l2 ++ r2 :: l3)) =
      validList 0 l1 ++ (0 + l1.length, d, r1) ::
        (validList (0 + l1.length + 1) l2 ++
          (0 + l1.length + 1 + l2.length, d, r2) ::
            validList (0 + l1.length + 1 + l2.length + 1) l3) := by
    rw [validList_append l1 _ 0, validList_cons_valid _ _ _ _ h1,
      validList_append l2 _ (0 + l1.length + 1), validList_cons_valid _ _ _ _ h2]
  constructor
  · rw [data_dict, hv, dictGet_foldl_dictInsert, List.filter_append,
      List.filter_cons_of_pos (by simp), List.filter_append,
      List.filter_cons_of_pos (by simp),
      List.filter_eq_nil_iff.mpr (fun e he => by simp [hkA e he]),
      List.filter_eq_nil_iff.mpr (fun e he => by simp [hkB e he]),
      List.filter_eq_nil_iff.mpr (fun e he => by simp [hkC e he])]
    simp only [List.nil_append, List.getLast?_cons_cons, List.getLast?_singleton,
      Option.elim_some]
  · rw [duplicate_log, hv, dupScan_append, dupScan]
    have hdA : d ∉ (validList 0 l1).reverse.map (fun e => e.2.1) ++ ([] : List Timestamp) := by
      intro hmem
      rw [List.append_nil] at hmem
      rcases List.mem_map.mp hmem with ⟨e, he, hkey⟩
      exact hkA e (List.mem_reverse.mp he) hkey
    rw [if_neg hdA, dupScan_append, dupScan]
    have hdB : d ∈ (validList (0 + l1.length + 1) l2).reverse.map (fun e => e.2.1) ++
        (0 + l1.length, d, r1).2.1 ::
          ((validList 0 l1).reverse.map (fun e => e.2.1) ++ ([] : List Timestamp)) := by
      apply List.mem_append.mpr
      exact Or.inr (List.mem_cons_self _ _)
    rw [if_pos hdB]
    have hkB' : ∀ e ∈ validList (l1.length + 1) l2, e.2.1 ≠ d := by
      have h0 : (0 : ℕ) + l1.length + 1 = l1.length + 1 := by omega
      rw [h0] at hkB
      exact hkB
    have hkC' : ∀ e ∈ validList (l1.length + 1 + l2.length + 1) l3, e.2.1 ≠ d := by
      have h0 : (0 : ℕ) + l1.length + 1 + l2.length + 1 = l1.length + 1 + l2.length + 1 := by
        omega
      rw [h0] at hkC
      exact hkC
    simp [List.filter_append, dupScan_filter_nil d _ _ hkA,
      dupScan_filter_nil d _ _ hkB, dupScan_filter_nil d _ _ hkC,
      dupScan_filter_nil d _ _ hkB', dupScan_filter_nil d _ _ hkC']

theorem claim_C1_witness :
    to_datetime (RawRow.mk (Cell.str "2024-01-01")
        [Cell.num 1, Cell.num 2, Cell.num 3, Cell.num 4]).dateCell = some ⟨2024, 1, 1, 0⟩
    ∧ to_datetime (RawRow.mk (Cell.str "2024-01-01")
        [Cell.num 5, Cell.num 5, Cell.num 5, Cell.num 5]).dateCell = some ⟨2024, 1, 1, 0⟩
    ∧ (∀ r ∈ (([] : List RawRow) ++ [] ++ []), to_datetime r.dateCell ≠ some ⟨2024, 1, 1, 0⟩)
    ∧ (dictGet ⟨2024, 1, 1, 0⟩
        (data_dict ([] ++ RawRow.mk (Cell.str "2024-01-01")
          [Cell.num 1, Cell.num 2, Cell.num 3, Cell.num 4] ::
            ([] ++ RawRow.mk (Cell.str "2024-01-01")
              [Cell.num 5, Cell.num 5, Cell.num 5, Cell.num 5] :: []))) =
        some (sum_val (RawRow.mk (Cell.str "2024-01-01")
          [Cell.num 5, Cell.num 5, Cell.num 5, Cell.num 5]))
      ∧ (duplicate_log ([] ++ RawRow.mk (Cell.str "2024-01-01")
          [Cell.num 1, Cell.num 2, Cell.num 3, Cell.num 4] ::
            ([] ++ RawRow.mk (Cell.str "2024-01-01")
              [Cell.num 5, Cell.num 5, Cell.num 5, Cell.num 5] :: []))).filter
          (fun x => x.1 = (⟨2024, 1, 1, 0⟩ : Timestamp)) =
        [(⟨2024, 1, 1, 0⟩, List.length ([] : List RawRow) + 1 +
          List.length ([] : List RawRow) + 2)]) :=
  ⟨by decide, by decide, by simp,
    claim_C1 [] [] [] (RawRow.mk (Cell.str "2024-01-01")
        [Cell.num 1, Cell.num 2, Cell.num 3, Cell.num 4])
      (RawRow.mk (Cell.str "2024-01-01") [Cell.num 5, Cell.num 5, Cell.num 5, Cell.num 5])
      ⟨2024, 1, 1, 0⟩ (by decide) (by decide) (by simp)⟩

end Viceualize
